import Mathlib

/-!
Verification of the per-session streaming voice pipeline
(`app/main.py`, `app/services/llm_service.py`, `app/services/stt_service.py`,
`app/services/tts_service.py`, `app/config.py`, `app/models/schemas.py`).

Pure functions of the source are translated directly; stateful loops become
explicit state passing over lists of inbound events; Python code that can
raise is given an `Except`-valued translation, and the catch-all handlers of
the source become total functions on top of it.  External libraries (pydantic
parsing/serialization) are not part of the repository and are modelled from
the spec where a claim needs them; each such definition says so in its doc
comment.
-/

/-! ### Data model (`app/models/schemas.py`) -/

/-- The closed emotion enumeration of `schemas.Emotion`. -/
inductive Emotion where
  | curious
  | skeptical
  | interested
  | frustrated
  | impressed
  | neutral
deriving DecidableEq, Repr

/-- String form of each member of the emotion enumeration, as it appears in
the JSON wire format. -/
def Emotion.asString : Emotion → String
  | .curious => "curious"
  | .skeptical => "skeptical"
  | .interested => "interested"
  | .frustrated => "frustrated"
  | .impressed => "impressed"
  | .neutral => "neutral"

/-- `schemas.LLMResponse`: the validated shape of the model output. -/
structure LLMResponse where
  customer_utterance : String
  customer_emotion : Emotion
deriving DecidableEq, Repr

/-- `schemas.ConversationTurn`: one user utterance with the AI response and a
timestamp string. -/
structure ConversationTurn where
  user_utterance : String
  ai_response : LLMResponse
  timestamp : String
deriving DecidableEq, Repr

/-! ### Python string primitives used by `LLMService._clean_json_string` -/

/-- Python `str.find` restricted to a single character: index of the first
occurrence, `none` where Python returns `-1`. -/
def strFind (cs : List Char) (target : Char) : Option Nat :=
  match cs with
  | [] => none
  | c :: rest => if c = target then some 0 else (strFind rest target).map (· + 1)

/-- Python `str.rfind` restricted to a single character: index of the last
occurrence, `none` where Python returns `-1`. -/
def strRFind (cs : List Char) (target : Char) : Option Nat :=
  match strFind cs.reverse target with
  | some i => some (cs.length - 1 - i)
  | none => none

/-- `LLMService._clean_json_string`: slice the raw output from the first
opening brace to the last closing brace; empty string when either is
missing.  The slice `json_string[start:end+1]` is Python slicing, which is
empty whenever `start > end`. -/
def clean_json_string (s : String) : String :=
  match strFind s.toList '{', strRFind s.toList '}' with
  | some start_index, some end_index =>
      ⟨(s.toList.drop start_index).take (end_index + 1 - start_index)⟩
  | _, _ => ""

/-! ### JSON parsing and serialization

Modelled from the spec: the source calls pydantic
(`LLMResponse.parse_raw`, `model_dump_json`), a library outside the
repository.  The spec describes the call as "parse and strict-validate the
extracted substring against the LLM Response shape (unknown emotion value
fails validation)".  The model below parses a JSON object whose members are
string-valued — exactly the LLM Response shape — and fails on any other
input; string literals admit the usual escape sequences. -/

/-- Decoding of a JSON escape character (the character after a backslash). -/
def escDecode (c : Char) : Option Char :=
  if c = '"' then some '"'
  else if c = '\\' then some '\\'
  else if c = '/' then some '/'
  else if c = 'n' then some '\n'
  else if c = 't' then some '\t'
  else if c = 'r' then some '\r'
  else if c = 'b' then some (Char.ofNat 8)
  else if c = 'f' then some (Char.ofNat 12)
  else none

/-- Body of a JSON string literal, after the opening quote: returns the
decoded content and the remainder after the closing quote. -/
def parseStrBody : List Char → Option (List Char × List Char)
  | [] => none
  | c :: rest =>
    if c = '"' then some ([], rest)
    else if c = '\\' then
      match rest with
      | [] => none
      | e :: rest2 =>
        match escDecode e with
        | none => none
        | some d =>
          match parseStrBody rest2 with
          | none => none
          | some p => some (d :: p.1, p.2)
    else
      match parseStrBody rest with
      | none => none
      | some p => some (c :: p.1, p.2)

/-- A JSON string literal including its opening quote. -/
def parseStringAt (cs : List Char) : Option (List Char × List Char) :=
  match cs with
  | [] => none
  | c :: rest => if c = '"' then parseStrBody rest else none

/-- Skip JSON whitespace. -/
def skipWs : List Char → List Char
  | [] => []
  | c :: rest =>
    if c = ' ' ∨ c = '\n' ∨ c = '\t' ∨ c = '\r' then skipWs rest else c :: rest

/-- One `"key": "value"` member of a JSON object. -/
def parseMember (cs : List Char) : Option ((String × String) × List Char) :=
  match parseStringAt (skipWs cs) with
  | none => none
  | some kp =>
    match skipWs kp.2 with
    | [] => none
    | c :: r3 =>
      if c = ':' then
        match parseStringAt (skipWs r3) with
        | none => none
        | some vp => some ((⟨kp.1⟩, ⟨vp.1⟩), vp.2)
      else none

/-- The members of a JSON object after its opening brace, consuming the
closing brace.  Fuel bounds the recursion; the callers pass the input length
so fuel never runs out on inputs the grammar accepts. -/
def parseMembers : Nat → List Char → Option (List (String × String) × List Char)
  | 0, _ => none
  | Nat.succ fuel, cs =>
    match parseMember cs with
    | none => none
    | some pr =>
      match skipWs pr.2 with
      | [] => none
      | c :: r2 =>
        if c = ',' then
          match parseMembers fuel r2 with
          | none => none
          | some psr => some (pr.1 :: psr.1, psr.2)
        else if c = '}' then some ([pr.1], r2)
        else none

/-- A whole JSON object with string members, requiring the input to be fully
consumed apart from trailing whitespace. -/
def parseObjTop (cs : List Char) : Option (List (String × String)) :=
  match skipWs cs with
  | [] => none
  | c :: r1 =>
    if c = '{' then
      match skipWs r1 with
      | [] => none
      | d :: r3 =>
        if d = '}' then (if skipWs r3 = [] then some [] else none)
        else
          match parseMembers (cs.length + 1) (d :: r3) with
          | some psr => if skipWs psr.2 = [] then some psr.1 else none
          | none => none
    else none

/-- Last binding of a key in a member list: JSON keeps the last duplicate. -/
def lookupMember (ps : List (String × String)) (k : String) : Option String :=
  match ps with
  | [] => none
  | p :: rest =>
    match lookupMember rest k with
    | some v => some v
    | none => if p.1 = k then some p.2 else none

/-- Validation of the emotion string against the closed enumeration. -/
def emotionOfString (s : String) : Option Emotion :=
  if s = "curious" then some .curious
  else if s = "skeptical" then some .skeptical
  else if s = "interested" then some .interested
  else if s = "frustrated" then some .frustrated
  else if s = "impressed" then some .impressed
  else if s = "neutral" then some .neutral
  else none

/-- Modelled from the spec: pydantic `LLMResponse.parse_raw` — "parse and
strict-validate the extracted substring against the LLM Response shape
(unknown emotion value fails validation)".  Requires both fields; an emotion
outside the enumeration fails. -/
def LLMResponse.parse_raw (s : String) : Option LLMResponse :=
  match parseObjTop s.toList with
  | none => none
  | some ps =>
    match lookupMember ps "customer_utterance", lookupMember ps "customer_emotion" with
    | some u, some e =>
      match emotionOfString e with
      | some em => some ⟨u, em⟩
      | none => none
    | _, _ => none

/-- JSON escaping of one character (quote and backslash). -/
def escEncode (c : Char) : List Char :=
  if c = '"' ∨ c = '\\' then ['\\', c] else [c]

/-- JSON escaping of a character list. -/
def escList : List Char → List Char
  | [] => []
  | c :: rest => escEncode c ++ escList rest

/-- JSON escaping of a string. -/
def escStr (s : String) : String := ⟨escList s.toList⟩

/-- Modelled from the spec: pydantic `model_dump_json` of a prior response —
"serialized prior response" in the prompt rendering. -/
def LLMResponse.model_dump_json (r : LLMResponse) : String :=
  "\x7b\"customer_utterance\":\"" ++ escStr r.customer_utterance
    ++ "\",\"customer_emotion\":\"" ++ escStr r.customer_emotion.asString ++ "\"\x7d"

/-- Character-level form of a valid generation output
`{"customer_utterance": S, "customer_emotion": E}` with both values JSON
escaped. -/
def genJsonList (S E : List Char) : List Char :=
  '{' :: '"' :: ("customer_utterance".toList ++ '"' :: ':' :: ' ' :: '"' ::
    (escList S ++ '"' :: ',' :: ' ' :: '"' :: ("customer_emotion".toList ++ '"' :: ':' :: ' ' :: '"' ::
      (escList E ++ ['"', '}']))))

/-- A valid generation output `{"customer_utterance": S, "customer_emotion": E}`
as a raw model output string. -/
def genJson (S E : String) : String := ⟨genJsonList S.toList E.toList⟩

/-! ### Response Generator (`LLMService`) -/

/-- Result of the external `client.chat` call: either the raw text of the
model output, or a raised network/backend exception. -/
inductive BackendOutcome where
  | ok (raw : String)
  | error (msg : String)
deriving DecidableEq, Repr

/-- Python exceptions crossing the functions translated here. -/
inductive PyErr where
  | valueError (msg : String)
  | backendError (msg : String)
  | validationError
  | attributeError (missing : String)
deriving DecidableEq, Repr

/-- The fixed fallback response of `LLMService.generate_response`. -/
def fallbackResponse : LLMResponse :=
  { customer_utterance :=
      "I\x27m sorry, I\x27m having a little trouble right now. Can you repeat that?"
    customer_emotion := .frustrated }

/-- `LLMService._format_prompt_with_history`: render the history then the new
utterance into one prompt string. -/
def format_prompt_with_history (user_utterance : String) (history : List ConversationTurn) : String :=
  (history.foldl
      (fun acc turn =>
        acc ++ "Trainee: " ++ turn.user_utterance ++ "\n"
            ++ "Customer (You): " ++ turn.ai_response.model_dump_json ++ "\n")
      "\n--- Conversation History ---\n")
    ++ "--- New Utterance ---\n" ++ "Trainee: " ++ user_utterance ++ "\n"
    ++ "Customer (You): "

/-- The `try` body of `LLMService.generate_response` from the `chat` call on,
with each `raise` an explicit error: empty raw output and failed extraction
raise `ValueError`, a failed parse raises the pydantic validation error, and
a backend failure propagates out of `chat`. -/
def generate_response_core (outcome : BackendOutcome) : Except PyErr LLMResponse :=
  match outcome with
  | .error m => .error (.backendError m)
  | .ok raw =>
    if raw = "" then .error (.valueError "LLM returned an empty response.")
    else
      let cleaned := clean_json_string raw
      if cleaned = "" then .error (.valueError "Failed to extract JSON from LLM response.")
      else
        match LLMResponse.parse_raw cleaned with
        | some r => .ok r
        | none => .error .validationError

/-- `LLMService.generate_response`: the backend is abstracted as a function
from the prompt string to a `BackendOutcome`; every error of the `try` body
is caught and replaced by the fixed fallback. -/
def generate_response (chat : String → BackendOutcome)
    (user_utterance : String) (conversation_history : List ConversationTurn) : LLMResponse :=
  match generate_response_core (chat (format_prompt_with_history user_utterance conversation_history)) with
  | .ok r => r
  | .error _ => fallbackResponse

/-! ### Speech Synthesis Adapter (`TextToSpeechService`) -/

/-- Result of the external synthesis backend call: either the audio content
(bytes as numbers), or a raised exception. -/
inductive TTSOutcome where
  | ok (audio_content : List Nat)
  | error (msg : String)
deriving DecidableEq, Repr

/-- `TextToSpeechService.synthesize_speech`: the backend call is abstracted
as its outcome; the catch-all handler turns any failure into empty bytes. -/
def synthesize_speech (outcome : TTSOutcome) : List Nat :=
  match outcome with
  | .ok audio_content => audio_content
  | .error _ => []

/-! ### Session Orchestrator (`app/main.py`) -/

/-- The observable steps of `on_transcript_update`, in execution order:
outbound sends, the generate and synthesize calls, and the history append. -/
inductive OrchAction where
  | sendTranscript (text : String) (is_final : Bool)
  | callGenerate (utterance : String) (history : List ConversationTurn)
  | callSynthesize (text : String)
  | sendAudio (payload : List Nat)
  | appendTurn (turn : ConversationTurn)
deriving DecidableEq, Repr

/-- Outbound Messages of the envelope layer reaching the client.  The audio
payload is carried as raw bytes; the source base64-encodes it into the JSON
frame, which is injective and does not affect any claim. -/
inductive OutMsg where
  | transcript (text : String) (is_final : Bool)
  | audio (payload : List Nat)
deriving DecidableEq, Repr

/-- The message sent by an action, if any. -/
def messageOfAction : OrchAction → Option OutMsg
  | .sendTranscript t f => some (.transcript t f)
  | .sendAudio p => some (.audio p)
  | _ => none

/-- The Outbound Messages sent by a list of actions, in order. -/
def messagesOf (acts : List OrchAction) : List OutMsg :=
  acts.filterMap messageOfAction

/-- `on_transcript_update` of `app/main.py`, for one transcript callback:
send the transcript message; when final, call the generator, synthesize the
reply, send the audio message only when the bytes are non-empty (Python
truthiness of `bytes`), and append the completed turn.  `llm` and `tts` are
the (total, never-raising) services, `clock` supplies the timestamp string
for the turn.  Returns the new history and the action trace. -/
def on_transcript_update (llm : String → List ConversationTurn → LLMResponse)
    (tts : String → List Nat) (clock : Nat → String)
    (transcript : String) (is_final : Bool) (history : List ConversationTurn) :
    List ConversationTurn × List OrchAction :=
  if is_final then
    let llm_response := llm transcript history
    let audio_bytes := tts llm_response.customer_utterance
    let audioActs := if audio_bytes = [] then [] else [OrchAction.sendAudio audio_bytes]
    let turn : ConversationTurn :=
      { user_utterance := transcript, ai_response := llm_response
        timestamp := clock history.length }
    (history ++ [turn],
      OrchAction.sendTranscript transcript true
        :: OrchAction.callGenerate transcript history
        :: OrchAction.callSynthesize llm_response.customer_utterance
        :: (audioActs ++ [OrchAction.appendTurn turn]))
  else (history, [OrchAction.sendTranscript transcript false])

/-- A transcript event as delivered to the callback. -/
structure TranscriptEvent where
  text : String
  is_final : Bool
deriving DecidableEq, Repr

/-- The consumption loop state: process a list of transcript events in order
through `on_transcript_update`, threading the history and collecting the
action trace. -/
def runEvents (llm : String → List ConversationTurn → LLMResponse)
    (tts : String → List Nat) (clock : Nat → String) :
    List TranscriptEvent → List ConversationTurn → List ConversationTurn × List OrchAction
  | [], history => (history, [])
  | ev :: rest, history =>
    let st := on_transcript_update llm tts clock ev.text ev.is_final history
    let next := runEvents llm tts clock rest st.1
    (next.1, st.2 ++ next.2)

/-! ### Transcript Stream Adapter (`SpeechToTextService`) -/

/-- One alternative inside an upstream streaming result. -/
structure SpeechAlternative where
  transcript : String
deriving DecidableEq, Repr

/-- One upstream streaming result: its alternatives and finality flag. -/
structure StreamingResult where
  alternatives : List SpeechAlternative
  is_final : Bool
deriving DecidableEq, Repr

/-- One upstream streaming response, carrying a list of results. -/
structure StreamingResponse where
  results : List StreamingResult
deriving DecidableEq, Repr

/-- The response-handling body of `SpeechToTextService.process_audio_stream`
for one upstream response: skip a response without results, look only at
`results[0]`, skip it without alternatives, otherwise invoke the callback
with `alternatives[0].transcript` and `is_final`. -/
def handleResponse (llm : String → List ConversationTurn → LLMResponse)
    (tts : String → List Nat) (clock : Nat → String)
    (response : StreamingResponse) (history : List ConversationTurn) :
    List ConversationTurn × List OrchAction :=
  match response.results with
  | [] => (history, [])
  | result :: _ =>
    match result.alternatives with
    | [] => (history, [])
    | alt :: _ =>
      on_transcript_update llm tts clock alt.transcript result.is_final history

/-- The `async for` loop of `SpeechToTextService.process_audio_stream` over a
list of upstream responses. -/
def process_audio_stream (llm : String → List ConversationTurn → LLMResponse)
    (tts : String → List Nat) (clock : Nat → String) :
    List StreamingResponse → List ConversationTurn → List ConversationTurn × List OrchAction
  | [], history => (history, [])
  | response :: rest, history =>
    let st := handleResponse llm tts clock response history
    let next := process_audio_stream llm tts clock rest st.1
    (next.1, st.2 ++ next.2)

/-! ### Configuration (`app/config.py`) and the request generator -/

/-- The `Settings` pydantic model: exactly the declared fields, with the
declared defaults for the optional ones. -/
structure Settings where
  GOOGLE_APPLICATION_CREDENTIALS : String
  LLM_API_KEY : String
  CUSTOMER_SYSTEM_PROMPT : String
  AUDIO_ENCODING : String := "AUDIO_ENCODING_LINEAR_16"
  SAMPLE_RATE_HERTZ : Nat := 16000
  LANGUAGE_CODE : String := "en-US"
  TTS_VOICE_NAME : String := "en-US-Wavenet-D"
  TTS_AUDIO_ENCODING : String := "MP3"
deriving DecidableEq, Repr

/-- A value held by a settings attribute. -/
inductive AttrValue where
  | str (s : String)
  | nat (n : Nat)
deriving DecidableEq, Repr

/-- Python attribute access on the `Settings` instance: the declared fields
are the only attributes; any other name raises `AttributeError` (the pydantic
model stores no undeclared names). -/
def Settings.getattr (s : Settings) (attr : String) : Except PyErr AttrValue :=
  if attr = "GOOGLE_APPLICATION_CREDENTIALS" then .ok (.str s.GOOGLE_APPLICATION_CREDENTIALS)
  else if attr = "LLM_API_KEY" then .ok (.str s.LLM_API_KEY)
  else if attr = "CUSTOMER_SYSTEM_PROMPT" then .ok (.str s.CUSTOMER_SYSTEM_PROMPT)
  else if attr = "AUDIO_ENCODING" then .ok (.str s.AUDIO_ENCODING)
  else if attr = "SAMPLE_RATE_HERTZ" then .ok (.nat s.SAMPLE_RATE_HERTZ)
  else if attr = "LANGUAGE_CODE" then .ok (.str s.LANGUAGE_CODE)
  else if attr = "TTS_VOICE_NAME" then .ok (.str s.TTS_VOICE_NAME)
  else if attr = "TTS_AUDIO_ENCODING" then .ok (.str s.TTS_AUDIO_ENCODING)
  else .error (.attributeError attr)

/-- The Google STT audio encoding enumeration member used by the source. -/
inductive AudioEncodingKind where
  | LINEAR16
deriving DecidableEq, Repr

/-- `RecognitionConfig` as constructed by `_request_generator`. -/
structure RecognitionConfig where
  encoding : AudioEncodingKind
  sample_rate_hertz : Nat
  language_code : String
  alternative_language_codes : List String
  enable_automatic_punctuation : Bool
deriving DecidableEq, Repr

/-- `StreamingRecognitionConfig` as constructed by `_request_generator`. -/
structure StreamingRecognitionConfig where
  config : RecognitionConfig
  interim_results : Bool
deriving DecidableEq, Repr

/-- Construction of the streaming configuration in
`SpeechToTextService._request_generator`, with each `settings.X` read an
explicit attribute access in source order.  The encoding is the hardcoded
`LINEAR16`, not `settings.AUDIO_ENCODING`. -/
def buildStreamingConfig (s : Settings) : Except PyErr StreamingRecognitionConfig := do
  let rate ← s.getattr "SAMPLE_RATE_HERTZ"
  let lang ← s.getattr "LANGUAGE_CODE"
  let alts ← s.getattr "ALTERNATIVE_LANGUAGE_CODES"
  match rate, lang, alts with
  | .nat r, .str l, .str _ =>
    .ok { config :=
            { encoding := .LINEAR16, sample_rate_hertz := r, language_code := l
              alternative_language_codes := [], enable_automatic_punctuation := true }
          interim_results := true }
  | _, _, _ => .error .validationError

/-- An item on the session audio queue: an audio chunk or the `None`
end-of-stream marker. -/
inductive QItem where
  | chunk (data : List Nat)
  | endOfStream
deriving DecidableEq, Repr

/-- An inbound websocket event seen by `audio_receiver`: a binary frame or
the disconnect exception. -/
inductive WsIn where
  | bytes (data : List Nat)
  | disconnect
deriving DecidableEq, Repr

/-- `audio_receiver` of `app/main.py`: push every received chunk in arrival
order; on disconnect push the `None` marker once and stop. -/
def audio_receiver : List WsIn → List QItem
  | [] => []
  | .bytes data :: rest => .chunk data :: audio_receiver rest
  | .disconnect :: _ => [.endOfStream]

/-- A request yielded to the upstream streaming recognizer. -/
inductive STTRequest where
  | config (streaming_config : StreamingRecognitionConfig)
  | audio (audio_content : List Nat)
deriving DecidableEq, Repr

/-- The audio loop of `_request_generator`: yield one audio request per
chunk pulled from the queue, stopping at the `None` marker. -/
def request_generator_loop : List QItem → List STTRequest
  | [] => []
  | .chunk data :: rest => .audio data :: request_generator_loop rest
  | .endOfStream :: _ => []

/-- `SpeechToTextService._request_generator` over the queue contents: build
the streaming configuration (which performs the settings attribute reads),
yield it first, then run the audio loop.  An exception while building the
configuration escapes the generator. -/
def request_generator (s : Settings) (queue : List QItem) : Except PyErr (List STTRequest) :=
  match buildStreamingConfig s with
  | .error e => .error e
  | .ok cfg => .ok (.config cfg :: request_generator_loop queue)

/-! ### Claim-side definitions -/

/-- Whether an Outbound Message is a transcript message. -/
def OutMsg.isTranscript : OutMsg → Bool
  | .transcript _ _ => true
  | .audio _ => false

/-- Follows the words of the claim for C2: the upstream results, across all
responses in arrival order, that contain at least one alternative. -/
def spec_results_with_alternatives (responses : List StreamingResponse) : List StreamingResult :=
  (responses.map (fun resp => resp.results.filter (fun result => !result.alternatives.isEmpty))).flatten

/-- What the source emits per upstream response: nothing for a response
without results or whose first result has no alternatives, otherwise the one
transcript message built from the first alternative of the first result. -/
def transcriptOfResponse (response : StreamingResponse) : Option OutMsg :=
  match response.results with
  | [] => none
  | result :: _ =>
    match result.alternatives with
    | [] => none
    | alt :: _ => some (.transcript alt.transcript result.is_final)

/-- Rendering of one prior turn inside the prompt: the trainee line followed
by the serialized prior response. -/
def renderTurn (turn : ConversationTurn) : String :=
  "Trainee: " ++ turn.user_utterance ++ "\n"
    ++ "Customer (You): " ++ turn.ai_response.model_dump_json ++ "\n"

/-- Concatenation of a list of strings, in order. -/
def joinStrings : List String → String
  | [] => ""
  | s :: rest => s ++ joinStrings rest


/-! ### Helper lemmas -/

theorem skipWs_quote (l : List Char) : skipWs ('"' :: l) = '"' :: l := rfl

theorem skipWs_space (l : List Char) : skipWs (' ' :: l) = skipWs l := rfl

theorem parseStringAt_quote (l : List Char) : parseStringAt ('"' :: l) = parseStrBody l := rfl

theorem mk_toList (s : String) : (⟨s.toList⟩ : String) = s := rfl

theorem parseStrBody_quote (rest : List Char) :
    parseStrBody ('"' :: rest) = some ([], rest) := by
  rw [parseStrBody.eq_def]; simp

theorem parseStrBody_escList (s rest : List Char) :
    parseStrBody (escList s ++ '"' :: rest) = some (s, rest) := by
  induction s with
  | nil => simp [escList, parseStrBody_quote]
  | cons c cs ih =>
    by_cases h : c = '"' ∨ c = '\\'
    · rcases h with h | h <;> subst h <;>
        (simp only [escList, escEncode, List.cons_append, if_pos, List.append_assoc]
         rw [parseStrBody.eq_def]
         simp [escDecode, ih])
    · push_neg at h
      simp only [escList, escEncode, h.1, h.2, or_self, if_neg, not_false_iff,
        List.cons_append, List.nil_append, List.append_assoc]
      rw [parseStrBody.eq_def]
      simp [h.1, h.2, ih]

theorem parseStrBody_plain (s rest : List Char)
    (h : ∀ c ∈ s, c ≠ '"' ∧ c ≠ '\\') :
    parseStrBody (s ++ '"' :: rest) = some (s, rest) := by
  induction s with
  | nil => simp [parseStrBody_quote]
  | cons c cs ih =>
    have hc := h c (by simp)
    have hcs : ∀ d ∈ cs, d ≠ '"' ∧ d ≠ '\\' := fun d hd => h d (by simp [hd])
    simp only [List.cons_append]
    rw [parseStrBody.eq_def]
    simp [hc.1, hc.2, ih hcs]

theorem skipWs_colon (l : List Char) : skipWs (':' :: l) = ':' :: l := rfl

theorem skipWs_comma (l : List Char) : skipWs (',' :: l) = ',' :: l := rfl

theorem skipWs_close (l : List Char) : skipWs ('}' :: l) = '}' :: l := rfl

theorem parseMember_gen (key : String) (V tail : List Char)
    (hkey : ∀ c ∈ key.toList, c ≠ '"' ∧ c ≠ '\\') :
    parseMember ('"' :: (key.toList ++ '"' :: ':' :: ' ' :: '"' :: (escList V ++ '"' :: tail)))
      = some ((key, ⟨V⟩), tail) := by
  simp only [parseMember, skipWs_quote, parseStringAt_quote,
    parseStrBody_plain _ _ hkey, skipWs_colon, skipWs_space, skipWs_quote,
    parseStrBody_escList, mk_toList]
  simp

theorem parseMember_space (l : List Char) : parseMember (' ' :: l) = parseMember l := by
  simp only [parseMember, skipWs_space]

theorem parseMembers_two (S E : List Char) (fuel : Nat) :
    parseMembers (Nat.succ (Nat.succ fuel))
      ('"' :: ("customer_utterance".toList ++ '"' :: ':' :: ' ' :: '"' ::
        (escList S ++ '"' :: ',' :: ' ' :: '"' :: ("customer_emotion".toList ++ '"' :: ':' :: ' ' :: '"' ::
          (escList E ++ ['"', '}'])))))
      = some ([("customer_utterance", ⟨S⟩), ("customer_emotion", ⟨E⟩)], []) := by
  have hkeyU : ∀ c ∈ "customer_utterance".toList, c ≠ '"' ∧ c ≠ '\\' := by decide
  have hkeyE : ∀ c ∈ "customer_emotion".toList, c ≠ '"' ∧ c ≠ '\\' := by decide
  have hm2 := parseMember_gen "customer_emotion" E ['}'] hkeyE
  have hm1 := parseMember_gen "customer_utterance" S
      (',' :: ' ' :: '"' :: ("customer_emotion".toList ++ '"' :: ':' :: ' ' :: '"' :: (escList E ++ ['"', '}'])))
      hkeyU
  generalize hgU : "customer_utterance".toList = kU at hm1 ⊢
  generalize hgE : "customer_emotion".toList = kE at hm1 hm2 ⊢
  have h2 : parseMembers (Nat.succ fuel)
      (' ' :: '"' :: (kE ++ '"' :: ':' :: ' ' :: '"' :: (escList E ++ ['"', '}'])))
      = some ([("customer_emotion", ⟨E⟩)], []) := by
    rw [parseMembers, parseMember_space, hm2]
    simp [skipWs_close]
  rw [parseMembers, hm1]
  simp [skipWs_comma, h2]

theorem skipWs_open (l : List Char) : skipWs ('{' :: l) = '{' :: l := rfl

theorem parseObjTop_genJsonList (S E : List Char) :
    parseObjTop (genJsonList S E)
      = some [("customer_utterance", ⟨S⟩), ("customer_emotion", ⟨E⟩)] := by
  have hfu := fun fuel => parseMembers_two S E fuel
  simp only [genJsonList]
  generalize hgU : "customer_utterance".toList = kU at hfu ⊢
  generalize hgE : "customer_emotion".toList = kE at hfu ⊢
  have hlen : ∀ u : List Char, ('{' :: '"' :: u).length + 1 = Nat.succ (Nat.succ (u.length + 1)) := by
    intro u; simp only [List.length_cons]
  simp only [parseObjTop, skipWs_open, skipWs_quote, hlen, hfu]
  simp [skipWs]

theorem toList_mk (l : List Char) : (⟨l⟩ : String).toList = l := rfl

theorem strFind_cons_self (l : List Char) (t : Char) : strFind (t :: l) t = some 0 := by
  rw [strFind]; simp

theorem strFind_eq_none_iff (l : List Char) (t : Char) : strFind l t = none ↔ t ∉ l := by
  induction l with
  | nil => simp [strFind]
  | cons c cs ih =>
    rw [strFind]
    by_cases h : c = t
    · subst h; simp
    · simp [h, Option.map_eq_none', ih, Ne.symm h]

theorem strFind_lt_length (l : List Char) (t : Char) (i : Nat) (h : strFind l t = some i) :
    i < l.length := by
  induction l generalizing i with
  | nil => simp [strFind] at h
  | cons c cs ih =>
    rw [strFind] at h
    by_cases hc : c = t
    · rw [if_pos hc] at h
      injection h with h2
      simp [← h2]
    · rw [if_neg hc] at h
      cases hfind : strFind cs t with
      | none => rw [hfind] at h; simp at h
      | some j =>
        rw [hfind] at h
        simp at h
        have := ih j hfind
        simp only [List.length_cons]
        omega

theorem strFind_append_of_not_mem (l1 l2 : List Char) (t : Char) (h : t ∉ l1) :
    strFind (l1 ++ l2) t = (strFind l2 t).map (· + l1.length) := by
  induction l1 with
  | nil => cases hf : strFind l2 t <;> simp [hf]
  | cons c cs ih =>
    have hc : c ≠ t := fun hh => h (by simp [hh])
    have hcs : t ∉ cs := fun hh => h (by simp [hh])
    rw [List.cons_append, strFind, if_neg hc, ih hcs]
    cases hf : strFind l2 t with
    | none => simp
    | some a =>
      simp only [Option.map_some', Option.some.injEq, List.length_cons]
      omega

theorem reverse_shape (pre mid suf : List Char) :
    ((pre ++ ('{' :: (mid ++ ['}']))) ++ suf).reverse
      = suf.reverse ++ ('}' :: (mid.reverse ++ ('{' :: pre.reverse))) := by
  simp

theorem clean_json_core (pre mid suf : List Char)
    (hpre : '{' ∉ pre) (hsuf : '}' ∉ suf) :
    clean_json_string ⟨(pre ++ ('{' :: (mid ++ ['}']))) ++ suf⟩ = ⟨'{' :: (mid ++ ['}'])⟩ := by
  have hsufr : '}' ∉ suf.reverse := by simpa using hsuf
  have hfind : strFind ((pre ++ ('{' :: (mid ++ ['}']))) ++ suf) '{' = some pre.length := by
    rw [List.append_assoc, List.cons_append, strFind_append_of_not_mem _ _ _ hpre,
      strFind_cons_self]
    simp
  have h1 : strFind (((pre ++ ('{' :: (mid ++ ['}']))) ++ suf).reverse) '}' = some suf.length := by
    rw [reverse_shape, strFind_append_of_not_mem _ _ _ hsufr, strFind_cons_self]
    simp
  have hrfind : strRFind ((pre ++ ('{' :: (mid ++ ['}']))) ++ suf) '}'
      = some (pre.length + mid.length + 1) := by
    rw [strRFind, h1]
    simp only [Option.some.injEq, List.length_append, List.length_cons, List.length_nil]
    omega
  rw [clean_json_string, toList_mk, hfind, hrfind]
  simp only []
  rw [show pre.length + mid.length + 1 + 1 - pre.length = mid.length + 2 from by omega]
  rw [List.append_assoc, List.drop_left]
  rw [List.take_left' (by simp)]

theorem genJsonList_shape (S E : List Char) :
    genJsonList S E
      = '{' :: (('"' :: ("customer_utterance".toList ++ '"' :: ':' :: ' ' :: '"' ::
          (escList S ++ '"' :: ',' :: ' ' :: '"' :: ("customer_emotion".toList ++ '"' :: ':' :: ' ' :: '"' ::
            (escList E ++ ['"']))))) ++ ['}']) := by
  simp [genJsonList]

theorem clean_genJson (S E : String) :
    clean_json_string (genJson S E) = genJson S E := by
  rw [genJson, genJsonList_shape]
  have h := clean_json_core []
      ('"' :: ("customer_utterance".toList ++ '"' :: ':' :: ' ' :: '"' ::
        (escList S.toList ++ '"' :: ',' :: ' ' :: '"' :: ("customer_emotion".toList ++ '"' :: ':' :: ' ' :: '"' ::
          (escList E.toList ++ ['"'])))))
      [] (by simp) (by simp)
  rw [List.nil_append, List.append_nil] at h
  exact h

theorem lookup_pair_utterance (S E : String) :
    lookupMember [("customer_utterance", S), ("customer_emotion", E)] "customer_utterance"
      = some S := by
  have hne : ("customer_emotion" = "customer_utterance") = False := by simp
  simp [lookupMember, hne]

theorem lookup_pair_emotion (S E : String) :
    lookupMember [("customer_utterance", S), ("customer_emotion", E)] "customer_emotion"
      = some E := by
  simp [lookupMember]

theorem parse_raw_genJson (S E : String) :
    LLMResponse.parse_raw (genJson S E)
      = (emotionOfString E).map (fun em => ⟨S, em⟩) := by
  have hobj := parseObjTop_genJsonList S.toList E.toList
  rw [LLMResponse.parse_raw, genJson, toList_mk, hobj]
  simp only [mk_toList, lookup_pair_utterance, lookup_pair_emotion]
  cases emotionOfString E <;> simp

theorem strRFind_eq_none_iff (l : List Char) (t : Char) : strRFind l t = none ↔ t ∉ l := by
  rw [strRFind]
  cases hf : strFind l.reverse t with
  | none =>
    have := (strFind_eq_none_iff _ _).mp hf
    simp only [List.mem_reverse] at this
    simp [this]
  | some i =>
    have hmem : t ∈ l.reverse := by
      by_contra hmem
      rw [(strFind_eq_none_iff _ _).mpr hmem] at hf
      cases hf
    simp only [List.mem_reverse] at hmem
    simp [hmem]

theorem foldl_renderTurn (l : List ConversationTurn) (init : String) :
    l.foldl
      (fun acc turn =>
        acc ++ "Trainee: " ++ turn.user_utterance ++ "\n"
            ++ "Customer (You): " ++ turn.ai_response.model_dump_json ++ "\n") init
      = init ++ joinStrings (l.map renderTurn) := by
  induction l generalizing init with
  | nil => simp [joinStrings, String.append_empty]
  | cons t ts ih =>
    simp only [List.foldl_cons, List.map_cons, joinStrings]
    rw [ih]
    simp [renderTurn, String.append_assoc]

/-! ### Claim theorems -/

/-- C4: for every raw model output that is a valid generation output
with utterance S and an emotion E inside the enumeration,
`generate_response` returns exactly the response with utterance S and that
emotion, unchanged, for every utterance and history. -/
theorem C4_valid_output_unchanged :
    ∀ (S E : String) (em : Emotion), emotionOfString E = some em →
    ∀ (u : String) (hist : List ConversationTurn),
      generate_response (fun _ => BackendOutcome.ok (genJson S E)) u hist
        = ⟨S, em⟩ := by
  intro S E em hem u hist
  have hne : genJson S E ≠ "" := by
    simp [genJson, genJsonList, String.ext_iff]
  simp only [generate_response, generate_response_core]
  rw [if_neg hne, clean_genJson, if_neg hne, parse_raw_genJson, hem]
  simp

/-- Witness for C4 at a concrete valid generation output. -/
theorem C4_valid_output_unchanged_witness :
    emotionOfString "curious" = some Emotion.curious
    ∧ generate_response (fun _ => BackendOutcome.ok (genJson "Hello" "curious")) "u" []
        = ⟨"Hello", Emotion.curious⟩ :=
  ⟨by decide, C4_valid_output_unchanged "Hello" "curious" Emotion.curious (by decide) "u" []⟩

/-- C5: JSON extraction reports failure (empty result) when no opening or no
closing brace is present, and on any string made of one brace-delimited body
surrounded by brace-free prefix and suffix noise it returns exactly that
body, the substring from the first opening to the last closing brace. -/
theorem C5_extraction_first_to_last :
    (∀ s : String, ('{' ∉ s.toList ∨ '}' ∉ s.toList) → clean_json_string s = "")
    ∧ (∀ pre mid suf : List Char,
        '{' ∉ pre → '}' ∉ pre → '{' ∉ suf → '}' ∉ suf →
        clean_json_string ⟨(pre ++ ('{' :: (mid ++ ['}']))) ++ suf⟩
          = ⟨'{' :: (mid ++ ['}'])⟩) := by
  constructor
  · intro s h
    rcases h with h | h
    · have hn : strFind s.toList '{' = none := (strFind_eq_none_iff _ _).mpr h
      simp only [String.toList] at hn
      cases hr : strRFind s.data '}' <;> simp [clean_json_string, hn, hr]
    · have hn : strRFind s.toList '}' = none := (strRFind_eq_none_iff _ _).mpr h
      simp only [String.toList] at hn
      cases hf : strFind s.data '{' <;> simp [clean_json_string, hn, hf]
  · intro pre mid suf hpre _ _ hsuf
    exact clean_json_core pre mid suf hpre hsuf

/-- Witness for C5 at concrete inputs. -/
theorem C5_extraction_first_to_last_witness :
    clean_json_string "no braces at all" = ""
    ∧ clean_json_string ⟨(['n'] ++ ('{' :: (['k'] ++ ['}']))) ++ ['m']⟩
        = ⟨'{' :: (['k'] ++ ['}'])⟩ :=
  ⟨C5_extraction_first_to_last.1 "no braces at all" (Or.inl (by decide)),
   C5_extraction_first_to_last.2 ['n'] ['k'] ['m'] (by decide) (by decide) (by decide) (by decide)⟩

/-- C10: when the first opening brace comes after the last closing brace,
extraction returns the empty string rather than raising, and
`generate_response` falls back. -/
theorem C10_reversed_braces_empty_extraction :
    ∀ (s : String) (i j : Nat),
      strFind s.toList '{' = some i → strRFind s.toList '}' = some j → j < i →
      clean_json_string s = ""
      ∧ ∀ (u : String) (hist : List ConversationTurn),
          generate_response (fun _ => BackendOutcome.ok s) u hist = fallbackResponse := by
  intro s i j hf hr hj
  have hclean : clean_json_string s = "" := by
    rw [clean_json_string, hf, hr]
    show (⟨(s.toList.drop i).take (j + 1 - i)⟩ : String) = ""
    rw [show j + 1 - i = 0 from by omega, List.take_zero]
  refine ⟨hclean, ?_⟩
  intro u hist
  have hsne : s ≠ "" := by
    intro he
    subst he
    simp [strFind] at hf
  simp only [generate_response, generate_response_core]
  rw [if_neg hsne, hclean]
  simp

/-- Witness for C10 at the concrete input with reversed braces. -/
theorem C10_reversed_braces_empty_extraction_witness :
    clean_json_string "\x7d\x7b" = ""
    ∧ generate_response (fun _ => BackendOutcome.ok "\x7d\x7b") "u" [] = fallbackResponse := by
  have h := C10_reversed_braces_empty_extraction "\x7d\x7b" 1 0 (by decide) (by decide)
      (by decide)
  exact ⟨h.1, h.2 "u" []⟩

/-- C1: `generate_response` is total — every error raised inside the try
body (backend/network error, empty raw output, failed JSON extraction,
failed parse or validation including an emotion outside the enumeration) is
caught and replaced by exactly the fixed fallback response, and on success
the parsed response is returned. -/
theorem C1_generate_response_never_raises :
    ∀ (chat : String → BackendOutcome) (u : String) (hist : List ConversationTurn),
      (∀ e, generate_response_core (chat (format_prompt_with_history u hist)) = Except.error e →
          generate_response chat u hist = fallbackResponse)
      ∧ (generate_response chat u hist = fallbackResponse
          ∨ generate_response_core (chat (format_prompt_with_history u hist))
              = Except.ok (generate_response chat u hist))
      ∧ (∀ m, chat (format_prompt_with_history u hist) = BackendOutcome.error m →
          generate_response chat u hist = fallbackResponse)
      ∧ (chat (format_prompt_with_history u hist) = BackendOutcome.ok "" →
          generate_response chat u hist = fallbackResponse)
      ∧ (∀ raw, chat (format_prompt_with_history u hist) = BackendOutcome.ok raw →
          LLMResponse.parse_raw (clean_json_string raw) = none →
          generate_response chat u hist = fallbackResponse) := by
  intro chat u hist
  refine ⟨?_, ?_, ?_, ?_, ?_⟩
  · intro e he
    simp [generate_response, he]
  · cases hco : generate_response_core (chat (format_prompt_with_history u hist)) with
    | ok r => right; simp [generate_response, hco]
    | error e => left; simp [generate_response, hco]
  · intro m hm
    simp [generate_response, generate_response_core, hm]
  · intro h
    simp [generate_response, generate_response_core, h]
  · intro raw hraw hparse
    simp only [generate_response, generate_response_core, hraw]
    by_cases hre : raw = ""
    · simp [hre]
    · rw [if_neg hre]
      by_cases hcl : clean_json_string raw = ""
      · simp [hcl]
      · rw [if_neg hcl, hparse]

/-- Witness for C1 on concrete failures: a backend exception, an empty raw
output, and a JSON object missing the emotion field all yield the fixed
fallback. -/
theorem C1_generate_response_never_raises_witness :
    generate_response (fun _ => BackendOutcome.error "connection reset") "u" [] = fallbackResponse
    ∧ generate_response (fun _ => BackendOutcome.ok "") "u" [] = fallbackResponse
    ∧ generate_response (fun _ => BackendOutcome.ok "\x7b\"customer_utterance\": \"hi\"\x7d") "u" []
        = fallbackResponse :=
  ⟨(C1_generate_response_never_raises (fun _ => BackendOutcome.error "connection reset") "u" []).2.2.1
      "connection reset" rfl,
   (C1_generate_response_never_raises (fun _ => BackendOutcome.ok "") "u" []).2.2.2.1 rfl,
   (C1_generate_response_never_raises
      (fun _ => BackendOutcome.ok "\x7b\"customer_utterance\": \"hi\"\x7d") "u" []).2.2.2.2
      "\x7b\"customer_utterance\": \"hi\"\x7d" rfl (by decide)⟩

/-- C9: the prompt renders the history in chronological order, each prior
turn as trainee line plus serialized prior response, then the new utterance,
terminated by the reply cue; with empty history the prompt holds only the
new trainee line between the fixed section markers. -/
theorem C9_prompt_renders_history_then_utterance :
    (∀ (u : String) (hist : List ConversationTurn),
      format_prompt_with_history u hist
        = "\n--- Conversation History ---\n" ++ joinStrings (hist.map renderTurn)
          ++ "--- New Utterance ---\n" ++ "Trainee: " ++ u ++ "\n" ++ "Customer (You): ")
    ∧ format_prompt_with_history "I want a refund" []
        = "\n--- Conversation History ---\n--- New Utterance ---\nTrainee: I want a refund\nCustomer (You): " := by
  constructor
  · intro u hist
    rw [format_prompt_with_history, foldl_renderTurn]
  · decide

/-! ### Helper lemmas for the orchestrator and adapters -/

theorem messagesOf_append (a b : List OrchAction) :
    messagesOf (a ++ b) = messagesOf a ++ messagesOf b := by
  simp [messagesOf, List.filterMap_append]

theorem on_transcript_update_fst (llm : String → List ConversationTurn → LLMResponse)
    (tts : String → List Nat) (clock : Nat → String) (t : String) (f : Bool)
    (hist : List ConversationTurn) :
    (on_transcript_update llm tts clock t f hist).1
      = if f then hist ++ [⟨t, llm t hist, clock hist.length⟩] else hist := by
  cases f <;> simp [on_transcript_update]

theorem runEvents_hist_map (llm : String → List ConversationTurn → LLMResponse)
    (tts : String → List Nat) (clock : Nat → String) (evs : List TranscriptEvent) :
    ∀ hist : List ConversationTurn,
      ((runEvents llm tts clock evs hist).1).map ConversationTurn.user_utterance
        = hist.map ConversationTurn.user_utterance
          ++ ((evs.filter (fun ev => ev.is_final)).map TranscriptEvent.text) := by
  induction evs with
  | nil => intro hist; simp [runEvents]
  | cons ev rest ih =>
    intro hist
    rw [runEvents]
    cases hf : ev.is_final with
    | false =>
      rw [show (on_transcript_update llm tts clock ev.text false hist).1 = hist from by
        rw [on_transcript_update_fst]; simp]
      simp [ih hist, List.filter_cons, hf]
    | true =>
      rw [show (on_transcript_update llm tts clock ev.text true hist).1
          = hist ++ [⟨ev.text, llm ev.text hist, clock hist.length⟩] from by
        rw [on_transcript_update_fst]; simp]
      simp [ih (hist ++ [⟨ev.text, llm ev.text hist, clock hist.length⟩]),
        List.filter_cons, hf]

theorem runEvents_append_only (llm : String → List ConversationTurn → LLMResponse)
    (tts : String → List Nat) (clock : Nat → String) (evs : List TranscriptEvent) :
    ∀ hist : List ConversationTurn,
      ∃ ts : List ConversationTurn, (runEvents llm tts clock evs hist).1 = hist ++ ts := by
  induction evs with
  | nil => intro hist; exact ⟨[], by simp [runEvents]⟩
  | cons ev rest ih =>
    intro hist
    rw [runEvents]
    cases hf : ev.is_final with
    | false =>
      rw [show (on_transcript_update llm tts clock ev.text false hist).1 = hist from by
        rw [on_transcript_update_fst]; simp]
      exact ih hist
    | true =>
      rw [show (on_transcript_update llm tts clock ev.text true hist).1
          = hist ++ [⟨ev.text, llm ev.text hist, clock hist.length⟩] from by
        rw [on_transcript_update_fst]; simp]
      obtain ⟨ts, hts⟩ := ih (hist ++ [⟨ev.text, llm ev.text hist, clock hist.length⟩])
      exact ⟨⟨ev.text, llm ev.text hist, clock hist.length⟩ :: ts, by simp [hts]⟩

theorem transcript_msgs_step (llm : String → List ConversationTurn → LLMResponse)
    (tts : String → List Nat) (clock : Nat → String) (t : String) (f : Bool)
    (hist : List ConversationTurn) :
    (messagesOf (on_transcript_update llm tts clock t f hist).2).filter
        (fun m => m.isTranscript)
      = [OutMsg.transcript t f] := by
  cases f with
  | false => simp [on_transcript_update, messagesOf, messageOfAction, OutMsg.isTranscript]
  | true =>
    by_cases h : tts ((llm t hist).customer_utterance) = [] <;>
      simp [on_transcript_update, messagesOf, messageOfAction, OutMsg.isTranscript, h]

theorem buildStreamingConfig_fails (s : Settings) :
    buildStreamingConfig s
      = Except.error (PyErr.attributeError "ALTERNATIVE_LANGUAGE_CODES") := by
  simp [buildStreamingConfig, Settings.getattr, Bind.bind, Except.bind]

/-- C3: over any interleaving of interim and final transcript events, the
history is append-only, its order equals the order of the final transcripts
processed, an interim event leaves the history unchanged and only sends the
transcript message, and a final event appends exactly one fully built turn
as the last action, after the generate and synthesize calls, with at most an
audio send in between. -/
theorem C3_history_append_order :
    ∀ (llm : String → List ConversationTurn → LLMResponse) (tts : String → List Nat)
      (clock : Nat → String),
      (∀ (evs : List TranscriptEvent) (hist : List ConversationTurn),
        ∃ ts, (runEvents llm tts clock evs hist).1 = hist ++ ts)
      ∧ (∀ (evs : List TranscriptEvent) (hist : List ConversationTurn),
          ((runEvents llm tts clock evs hist).1).map ConversationTurn.user_utterance
            = hist.map ConversationTurn.user_utterance
              ++ ((evs.filter (fun ev => ev.is_final)).map TranscriptEvent.text))
      ∧ (∀ (t : String) (hist : List ConversationTurn),
          on_transcript_update llm tts clock t false hist
            = (hist, [OrchAction.sendTranscript t false]))
      ∧ (∀ (t : String) (hist : List ConversationTurn),
          ∃ audioActs,
            (audioActs = [] ∨ ∃ p, audioActs = [OrchAction.sendAudio p])
            ∧ on_transcript_update llm tts clock t true hist
              = (hist ++ [⟨t, llm t hist, clock hist.length⟩],
                 OrchAction.sendTranscript t true
                   :: OrchAction.callGenerate t hist
                   :: OrchAction.callSynthesize (llm t hist).customer_utterance
                   :: (audioActs
                        ++ [OrchAction.appendTurn ⟨t, llm t hist, clock hist.length⟩]))) := by
  intro llm tts clock
  refine ⟨runEvents_append_only llm tts clock, runEvents_hist_map llm tts clock, ?_, ?_⟩
  · intro t hist
    simp [on_transcript_update]
  · intro t hist
    refine ⟨if tts ((llm t hist).customer_utterance) = [] then []
        else [OrchAction.sendAudio (tts ((llm t hist).customer_utterance))], ?_, ?_⟩
    · by_cases h : tts ((llm t hist).customer_utterance) = [] <;> simp [h]
    · by_cases h : tts ((llm t hist).customer_utterance) = [] <;>
        simp [on_transcript_update, h]

/-- C6: `synthesize_speech` absorbs every backend failure into empty bytes,
and on a final transcript whose synthesis yields empty bytes the
orchestrator sends only the transcript message — no audio message — while
still appending the completed turn. -/
theorem C6_empty_audio_skips_send_still_appends :
    (∀ msg, synthesize_speech (TTSOutcome.error msg) = [])
    ∧ (∀ (llm : String → List ConversationTurn → LLMResponse) (tts : String → List Nat)
        (clock : Nat → String) (t : String) (hist : List ConversationTurn),
        tts ((llm t hist).customer_utterance) = [] →
        messagesOf (on_transcript_update llm tts clock t true hist).2
            = [OutMsg.transcript t true]
        ∧ (on_transcript_update llm tts clock t true hist).1
            = hist ++ [⟨t, llm t hist, clock hist.length⟩]) := by
  constructor
  · intro msg; rfl
  · intro llm tts clock t hist htts
    constructor <;> simp [on_transcript_update, htts, messagesOf, messageOfAction]

/-- Witness for C6 at a synthesizer that returns empty bytes. -/
theorem C6_empty_audio_skips_send_still_appends_witness :
    messagesOf (on_transcript_update (fun _ _ => fallbackResponse) (fun _ => [])
        (fun _ => "0") "hi" true []).2
      = [OutMsg.transcript "hi" true] :=
  (C6_empty_audio_skips_send_still_appends.2 (fun _ _ => fallbackResponse) (fun _ => [])
    (fun _ => "0") "hi" [] rfl).1

/-- C2 counterexample: one upstream response carrying two results, each with
an alternative, contains two results with at least one alternative but the
pipeline emits exactly one transcript message — the source reads only
`results[0]` of each response. -/
theorem C2_counterexample_two_results_one_message :
    ((messagesOf (process_audio_stream (fun _ _ => fallbackResponse) (fun _ => [])
          (fun _ => "0") [⟨[⟨[⟨"a"⟩], false⟩, ⟨[⟨"b"⟩], false⟩]⟩] []).2).filter
        (fun m => m.isTranscript)).length = 1
    ∧ (spec_results_with_alternatives [⟨[⟨[⟨"a"⟩], false⟩, ⟨[⟨"b"⟩], false⟩]⟩]).length = 2
    ∧ ¬ (((messagesOf (process_audio_stream (fun _ _ => fallbackResponse) (fun _ => [])
            (fun _ => "0") [⟨[⟨[⟨"a"⟩], false⟩, ⟨[⟨"b"⟩], false⟩]⟩] []).2).filter
          (fun m => m.isTranscript)).length
        = (spec_results_with_alternatives [⟨[⟨[⟨"a"⟩], false⟩, ⟨[⟨"b"⟩], false⟩]⟩]).length) := by
  refine ⟨by decide, by decide, by decide⟩

/-- C2 amended: the pipeline sends exactly one transcript message per
received upstream response whose first result has at least one alternative,
in arrival order, using that first result; responses without results, or
whose first result has no alternatives, produce no message, and results
after the first in a response are ignored.  Interim and final events are
both forwarded. -/
theorem C2_amended_one_transcript_per_response :
    ∀ (llm : String → List ConversationTurn → LLMResponse) (tts : String → List Nat)
      (clock : Nat → String) (responses : List StreamingResponse)
      (hist : List ConversationTurn),
      (messagesOf (process_audio_stream llm tts clock responses hist).2).filter
          (fun m => m.isTranscript)
        = responses.filterMap transcriptOfResponse := by
  intro llm tts clock responses
  induction responses with
  | nil => intro hist; simp [process_audio_stream, messagesOf]
  | cons resp rest ih =>
    intro hist
    rw [process_audio_stream]
    rcases hres : resp.results with _ | ⟨result, rs⟩
    · simp only [handleResponse, hres]
      simp [transcriptOfResponse, hres, ih hist]
    · rcases halt : result.alternatives with _ | ⟨alt, as⟩
      · simp only [handleResponse, hres, halt]
        simp [transcriptOfResponse, hres, halt, ih hist]
      · simp only [handleResponse, hres, halt]
        rw [messagesOf_append, List.filter_append, transcript_msgs_step, ih]
        simp [transcriptOfResponse, hres, halt]

/-- C7: the ingestion task pushes exactly the received chunks in arrival
order followed by one end-of-stream marker — in particular three chunks then
disconnect push three chunks plus one marker, and the audio loop of the
request generator would consume exactly those chunks and stop at the marker
— but the request generator as written raises `AttributeError` while
building its configuration frame (the `Settings` model declares no
`ALTERNATIVE_LANGUAGE_CODES` field), before yielding any request, for every
settings value. -/
theorem C7_ingestion_pushes_generator_raises :
    (∀ chunks : List (List Nat),
      audio_receiver (chunks.map WsIn.bytes ++ [WsIn.disconnect])
        = chunks.map QItem.chunk ++ [QItem.endOfStream])
    ∧ audio_receiver [WsIn.bytes [1], WsIn.bytes [2], WsIn.bytes [3], WsIn.disconnect]
        = [QItem.chunk [1], QItem.chunk [2], QItem.chunk [3], QItem.endOfStream]
    ∧ (∀ chunks : List (List Nat),
        request_generator_loop (chunks.map QItem.chunk ++ [QItem.endOfStream])
          = chunks.map STTRequest.audio)
    ∧ (∀ s : Settings,
        request_generator s [QItem.chunk [1], QItem.chunk [2], QItem.chunk [3], QItem.endOfStream]
          = Except.error (PyErr.attributeError "ALTERNATIVE_LANGUAGE_CODES")) := by
  refine ⟨?_, by decide, ?_, ?_⟩
  · intro chunks
    induction chunks with
    | nil => simp [audio_receiver]
    | cons c cs ih => simp [audio_receiver, ih]
  · intro chunks
    induction chunks with
    | nil => simp [request_generator_loop]
    | cons c cs ih => simp [request_generator_loop, ih]
  · intro s
    simp [request_generator, buildStreamingConfig_fails]

/-- C8: the first request of the adapter is never a configuration frame —
building the streaming configuration raises `AttributeError` for every
settings value, because `_request_generator` reads
`settings.ALTERNATIVE_LANGUAGE_CODES` while the `Settings` model declares no
such field (and the hardcoded `LINEAR16` encoding ignores
`settings.AUDIO_ENCODING`). -/
theorem C8_config_frame_never_built :
    ∀ s : Settings,
      buildStreamingConfig s = Except.error (PyErr.attributeError "ALTERNATIVE_LANGUAGE_CODES")
      ∧ (∀ queue : List QItem,
          request_generator s queue
            = Except.error (PyErr.attributeError "ALTERNATIVE_LANGUAGE_CODES"))
      ∧ s.getattr "ALTERNATIVE_LANGUAGE_CODES"
          = Except.error (PyErr.attributeError "ALTERNATIVE_LANGUAGE_CODES") := by
  intro s
  refine ⟨buildStreamingConfig_fails s, ?_, ?_⟩
  · intro queue
    simp [request_generator, buildStreamingConfig_fails]
  · simp [Settings.getattr]
